import Mathlib

/-!
Formal model of the staticgen static site generator (src/main.go).

Paths are modeled by the structure GoPath: a path string is represented by
its absoluteness flag together with the list of its non-empty
separator-separated components.  The functions goClean, goJoin, goRel and
goDir transcribe the Unix code paths of the Go standard library functions
filepath.Clean, filepath.Join, filepath.Rel and filepath.Dir on this
representation.  The template engine (html/template) is an external
dependency; a built template set is modeled by the structure Tset, an
oracle giving, for every block name, whether the block is defined
(Template.Lookup) and the outcome of executing it (Template.ExecuteTemplate).
Wall-clock readings (time.Now) are modeled by an explicit Clock input.
Filesystem writes are recorded as an explicit list of FsOp effects.
-/

/-- A file path: absoluteness flag plus the list of non-empty components.
For example the string "src/pages" is ⟨false, ["src", "pages"]⟩ and
"/a/b" is ⟨true, ["a", "b"]⟩; the strings "." and "" are ⟨false, []⟩ and
"/" is ⟨true, []⟩. -/
structure GoPath where
  abs : Bool
  comps : List String
deriving DecidableEq

/-- One step of the Go filepath.Clean element loop: acc is the output stack
(most recent component first), c the next input component. -/
def cleanStep (abs : Bool) (acc : List String) (c : String) : List String :=
  if c = "" ∨ c = "." then acc
  else if c = ".." then
    match acc with
    | [] => if abs then [] else [".."]
    | a :: rest => if a = ".." then ".." :: a :: rest else rest
  else c :: acc

/-- Component part of Go filepath.Clean: drop empty and dot components and
resolve dot-dot components against the output stack. -/
def cleanComps (abs : Bool) (l : List String) : List String :=
  (l.foldl (cleanStep abs) []).reverse

/-- Go filepath.Clean on the GoPath representation. -/
def goClean (p : GoPath) : GoPath :=
  ⟨p.abs, cleanComps p.abs p.comps⟩

/-- Go filepath.Join on two paths: concatenate with a separator and Clean.
The absoluteness of the second argument is irrelevant in the string form
(Clean collapses the doubled separator), so it is dropped. -/
def goJoin (p q : GoPath) : GoPath :=
  goClean ⟨p.abs, p.comps ++ q.comps⟩

/-- Render a GoPath back to its path string. -/
def GoPath.render (p : GoPath) : String :=
  if p.abs then
    if p.comps = [] then "/" else "/" ++ String.intercalate "/" p.comps
  else
    if p.comps = [] then "." else String.intercalate "/" p.comps

/-- The element-comparison loop of Go filepath.Rel: consume the common
prefix of the two component lists, returning both remainders. -/
def dropCommon : List String → List String → List String × List String
  | b :: bs, t :: ts => if b = t then dropCommon bs ts else (b :: bs, t :: ts)
  | bs, ts => (bs, ts)

/-- Go filepath.Rel (Unix code path).  Both inputs are Cleaned; equal paths
give dot; a mismatch in absoluteness is an error (the lexical computation
would need the working directory); otherwise the common prefix is dropped,
a leading dot-dot remainder of the base is an error, and the result climbs
out of the remaining base components and descends into the remaining
target components.  Note Go normalizes a base of dot to the empty string
(components []) but keeps a target of dot as the single segment ".". -/
def goRel (basep targp : GoPath) : Except String GoPath :=
  let base := goClean basep
  let targ := goClean targp
  if targ = base then .ok ⟨false, []⟩
  else if base.abs ≠ targ.abs then
    .error ("Rel: cannot make " ++ targp.render ++ " relative to " ++ basep.render)
  else
    let tsegs := if targ.abs = false ∧ targ.comps = [] then ["."] else targ.comps
    let r := dropCommon base.comps tsegs
    if r.1.head? = some ".." then
      .error ("Rel: cannot make " ++ targp.render ++ " relative to " ++ basep.render)
    else .ok ⟨false, List.replicate r.1.length ".." ++ r.2⟩

/-- Go filepath.Dir: drop the final component and Clean. -/
def goDir (p : GoPath) : GoPath :=
  goClean ⟨p.abs, p.comps.dropLast⟩

/-- Go strings.HasSuffix on the list-of-characters model. -/
def goHasSuffix (s suffix : String) : Bool :=
  suffix.data.isSuffixOf s.data

/-- Go strings.TrimSuffix: remove the suffix when present, otherwise return
the string unchanged. -/
def goTrimSuffix (s suffix : String) : String :=
  if goHasSuffix s suffix then
    String.mk (s.data.take (s.data.length - suffix.data.length))
  else s

/-- Go unicode.IsSpace: the White_Space property characters. -/
def goIsSpace (c : Char) : Bool :=
  c = ' ' || c = '\t' || c = '\n' || c = '\x0b' || c = '\x0c' || c = '\r' ||
  c = '\u0085' || c = ' ' || c = ' ' ||
  (' ' <= c && c <= ' ') ||
  c = ' ' || c = ' ' || c = ' ' || c = ' ' || c = '　'

/-- Go strings.TrimSpace: remove leading and trailing white space. -/
def goTrimSpace (s : String) : String :=
  String.mk (((s.data.dropWhile goIsSpace).reverse.dropWhile goIsSpace).reverse)

/-- The data passed to every final layout execution (src/main.go BaseData). -/
structure BaseData where
  Year : Int
  BuildTimestamp : String
deriving DecidableEq

/-- A wall-clock reading: the pieces of time.Now the program consumes.
year models time.Now().Year() and rfc3339 models the value the template
helper function nowRFC3339 would return at execution time. -/
structure Clock where
  year : Int
  rfc3339 : String
deriving DecidableEq

/-- Outcome of a failed template execution: the bytes already emitted to
the writer before the failure (execution streams), and the error message. -/
structure TErr where
  emitted : String
  msg : String
deriving DecidableEq

/-- A built template set (the html/template namespace produced by
ParseFiles together with the Funcs map): an oracle telling whether a block
name is defined (Template.Lookup ≠ nil) and what executing a block yields
(Template.ExecuteTemplate).  The data argument is none for the nil-data
override pass and some BaseData for the final pass; the Clock argument
models the wall clock visible to template functions such as nowRFC3339. -/
structure Tset where
  defined : String → Bool
  exec : String → Option BaseData → Clock → Except TErr String

/-- Layout resolution (src/main.go lines 95 to 107): default layout is
"public"; if a block named "layout_name" exists, execute it with nil data;
on success trim the output, and a non-empty trimmed result overrides the
default; an execution error or an empty trimmed result keeps the default. -/
def resolveLayout (t : Tset) (clk : Clock) : String :=
  if t.defined "layout_name" then
    match t.exec "layout_name" none clk with
    | .ok s =>
      let name := goTrimSpace s
      if name ≠ "" then name else "public"
    | .error _ => "public"
  else "public"

/-- Errors renderOne can return.  parseErr is the error from ParseFiles,
relErr the error from filepath.Rel, execErr the wrapped error from the
final layout execution, which records the page file and the layout name. -/
inductive RenderErr where
  | parseErr (msg : String)
  | relErr (msg : String)
  | execErr (pageFile : GoPath) (layout : String) (msg : String)
deriving DecidableEq

/-- The error message as printed: execErr mirrors the format string
"%s: executing layout %q: %w" of src/main.go line 138 (with %q modeled as
plain surrounding double quotes). -/
def RenderErr.message : RenderErr → String
  | .parseErr m => m
  | .relErr m => m
  | .execErr p l m => p.render ++ ": executing layout \"" ++ l ++ "\": " ++ m

/-- Filesystem effects performed by the program, in order. -/
inductive FsOp where
  | mkdirAll (dir : GoPath)
  | create (path : GoPath)
  | write (path : GoPath) (content : String)
deriving DecidableEq

/-- The output file name: strings.TrimSuffix(rel, ".template.html") + ".html"
applied to the string form of the relative path acts on its final
component; an empty component list renders as "." and yields the single
component "..html" (src/main.go line 114). -/
def outNameComps : List String → List String
  | [] => ["..html"]
  | [c] => [goTrimSuffix c ".template.html" ++ ".html"]
  | c :: c2 :: rest => c :: outNameComps (c2 :: rest)

/-- renderOne (src/main.go lines 76 to 146).  The glob expansion of the
shared include and layout files and the ParseFiles call are modeled by the
parsed argument: the outcome of building the template set for this page.
Returns the result together with the ordered list of filesystem effects:
a parse or Rel error happens before any effect; otherwise the output
directory is prepared, the output file created, and the layout executed
into it (a failing execution still leaves its already emitted bytes in
the created file). -/
def renderOne (srcDir outDir : GoPath) (parsed : Except String Tset)
    (pageFile : GoPath) (buildTimestamp : String) (clk : Clock) :
    Except RenderErr Unit × List FsOp :=
  match parsed with
  | .error e => (.error (.parseErr e), [])
  | .ok t =>
    let layout := resolveLayout t clk
    match goRel (goJoin srcDir ⟨false, ["pages"]⟩) pageFile with
    | .error e => (.error (.relErr e), [])
    | .ok rel =>
      let outPath := goJoin outDir ⟨false, outNameComps rel.comps⟩
      let data : BaseData := ⟨clk.year, buildTimestamp⟩
      match t.exec layout (some data) clk with
      | .ok out =>
        (.ok (), [FsOp.mkdirAll (goDir outPath), FsOp.create outPath, FsOp.write outPath out])
      | .error e =>
        (.error (.execErr pageFile layout e.msg),
         [FsOp.mkdirAll (goDir outPath), FsOp.create outPath, FsOp.write outPath e.emitted])

/-- Fatal errors of the main function. -/
inductive MainErr where
  | globErr (msg : String)
  | discoveryErr (msg : String)
  | renderFail (e : RenderErr)
deriving DecidableEq

/-- Render the discovered pages in order, stopping at the first failure
(src/main.go lines 67 to 71). -/
def runPages (srcDir outDir : GoPath) (tsetOf : GoPath → Except String Tset)
    (buildTimestamp : String) (clk : Clock) :
    List GoPath → Except RenderErr Unit × List FsOp
  | [] => (.ok (), [])
  | p :: ps =>
    match renderOne srcDir outDir (tsetOf p) p buildTimestamp clk with
    | (.error e, ops) => (.error e, ops)
    | (.ok _, ops) =>
      let r := runPages srcDir outDir tsetOf buildTimestamp clk ps
      (r.1, ops ++ r.2)

/-- The main pipeline (src/main.go lines 24 to 74) after flag parsing:
create the output directory, discover pages (globResult is the outcome of
filepath.Glob on Join(srcDir, pagesGlob)), abort when the glob fails or
matches nothing, and otherwise render every page.  tsetOf models, per
page, the glob expansion of the shared fragments plus ParseFiles. -/
def runMain (srcDir outDir pagesGlob : GoPath)
    (globResult : Except String (List GoPath))
    (tsetOf : GoPath → Except String Tset)
    (buildTimestamp : String) (clk : Clock) :
    Except MainErr Unit × List FsOp :=
  match globResult with
  | .error e => (.error (.globErr e), [FsOp.mkdirAll outDir])
  | .ok [] =>
    (.error (.discoveryErr ("no page templates found: " ++ (goJoin srcDir pagesGlob).render)),
     [FsOp.mkdirAll outDir])
  | .ok pages =>
    let r := runPages srcDir outDir tsetOf buildTimestamp clk pages
    (r.1.mapError .renderFail, FsOp.mkdirAll outDir :: r.2)

/-- Lookup in an association list of template names (a Go map keyed by
name; the list order is a canonical presentation, lookups are what Go
observes). -/
def lookupKey (n : String) : List (String × String) → Option String
  | [] => none
  | (k, v) :: rest => if k = n then some v else lookupKey n rest

/-- Map assignment: replace the value stored under an existing key. -/
def replaceKey (n v : String) : List (String × String) → List (String × String)
  | [] => []
  | (k, w) :: rest =>
    if k = n then (k, v) :: replaceKey n v rest else (k, w) :: replaceKey n v rest

/-- The add method of text/template/parse.Tree, run once per define block
while parsing one file; a body equal to "" models parse.IsEmptyTree.
A second non-empty definition of a name already bound to a non-empty body
within the same file is the "multiple definition of template" parse error;
an empty tree never overrides a non-empty one. -/
def addDefine (ts : List (String × String)) (nb : String × String) :
    Except String (List (String × String)) :=
  match lookupKey nb.1 ts with
  | none => .ok (ts ++ [nb])
  | some old =>
    if old = "" then .ok (replaceKey nb.1 nb.2 ts)
    else if nb.2 = "" then .ok ts
    else .error ("template: multiple definition of template " ++ nb.1)

/-- Parse the define blocks of a single file, in source order. -/
def parseFileDefsGo : List (String × String) → List (String × String) →
    Except String (List (String × String))
  | ts, [] => .ok ts
  | ts, nb :: rest =>
    match addDefine ts nb with
    | .error e => .error e
    | .ok ts2 => parseFileDefsGo ts2 rest

/-- Parse one file: a file is its list of define blocks (name, body); the
top-level template named after the file itself is one such pair. -/
def parseFileDefs (f : List (String × String)) :
    Except String (List (String × String)) :=
  parseFileDefsGo [] f

/-- The associate method of text/template.Template, merging one parsed
tree into the combined namespace: an empty new tree does not replace an
existing template, anything else (re)binds the name with no error. -/
def associate (set : List (String × String)) (nb : String × String) :
    List (String × String) :=
  match lookupKey nb.1 set with
  | some _ => if nb.2 = "" then set else replaceKey nb.1 nb.2 set
  | none => set ++ [nb]

/-- Process the file list of ParseFiles in order: parse each file, then
merge its templates into the combined namespace. -/
def parseFilesGo (set : List (String × String)) :
    List (List (String × String)) → Except String (List (String × String))
  | [] => .ok set
  | f :: rest =>
    match parseFileDefs f with
    | .error e => .error e
    | .ok ts => parseFilesGo (ts.foldl associate set) rest

/-- html/template ParseFiles over the combined file list (shared fragment
files followed by the page file), modeled at the level of named blocks. -/
def parseFilesModel (files : List (List (String × String))) :
    Except String (List (String × String)) :=
  parseFilesGo [] files

/-- The template set arising from a parsed namespace whose block bodies
are literal text: executing a defined block emits its body unchanged, and
executing an undefined block is an error. -/
def literalTset (m : List (String × String)) : Tset where
  defined n := (lookupKey n m).isSome
  exec n _ _ :=
    match lookupKey n m with
    | some b => .ok b
    | none => .error ⟨"", "no template " ++ n⟩

/-- Build the renderOne parse input from a ParseFiles outcome with literal
block bodies. -/
def tsetOfParse (r : Except String (List (String × String))) :
    Except String Tset :=
  r.map literalTset

/-- Go path.Match on a single path element, with fuel (the fuel is a bound
on the recursion depth; pattern length plus element length plus one always
suffices, since every step shortens their sum).  A star matches any
possibly empty character sequence, a question mark one character, a
backslash escapes the next pattern character, anything else matches
itself.  Character classes are not modeled; no pattern of this program
uses them. -/
def matchFuel : Nat → List Char → List Char → Bool
  | 0, _, _ => false
  | _ + 1, [], s => s.isEmpty
  | n + 1, '*' :: ps, [] => matchFuel n ps []
  | n + 1, '*' :: ps, c :: s => matchFuel n ps (c :: s) || matchFuel n ('*' :: ps) s
  | n + 1, '?' :: ps, _ :: s => matchFuel n ps s
  | n + 1, '\\' :: c :: ps, d :: s => (c == d) && matchFuel n ps s
  | n + 1, c :: ps, d :: s => (c == d) && matchFuel n ps s
  | _ + 1, _ :: _, [] => false

/-- Go path.Match of a pattern element against a path element. -/
def matchComp (pat s : String) : Bool :=
  matchFuel (pat.data.length + s.data.length + 1) pat.data s.data

/-- Whether filepath.Glob with the given pattern matches the given path:
Glob walks the pattern one element at a time, so a path matches exactly
when it has the same shape and every element matches the corresponding
pattern element (no pattern element matches across a separator). -/
def globMatch (pat p : GoPath) : Bool :=
  pat.abs == p.abs && pat.comps.length == p.comps.length &&
    (List.zip pat.comps p.comps).all fun pr => matchComp pr.1 pr.2

/-- The default value of the -glob flag (src/main.go line 28). -/
def defaultPagesGlob : GoPath := ⟨false, ["pages", "**", "*.template.html"]⟩

/-- The default value of the -src flag (src/main.go line 26), "./src". -/
def defaultSrcDir : GoPath := ⟨false, [".", "src"]⟩

/-- Whether the cleaned form of p lies under the cleaned root. -/
def underRoot (root p : GoPath) : Bool :=
  (goClean root).abs == (goClean p).abs &&
    (goClean root).comps.isPrefixOf (goClean p).comps

/-- A template set defining no blocks of interest for lookup, whose only
executable block is "public" with literal body "out". -/
def pubTset : Tset where
  defined _ := false
  exec n _ _ := if n = "public" then .ok "out" else .error ⟨"", "no template " ++ n⟩

/-- A template set whose "public" block renders the current year from the
injected data, as a template containing a Year field reference does. -/
def yearTset : Tset where
  defined _ := false
  exec n d _ :=
    match d with
    | some data => if n = "public" then .ok (toString data.Year) else .error ⟨"", "no template " ++ n⟩
    | none => .error ⟨"", "nil data"⟩

/-- A template set whose layout override block renders " dashboard " and
which defines the "dashboard" block. -/
def overrideTset : Tset where
  defined n := n = "layout_name" || n = "dashboard"
  exec n _ _ :=
    if n = "layout_name" then .ok " dashboard\n"
    else if n = "dashboard" then .ok "dash body"
    else .error ⟨"", "no template " ++ n⟩

/-- A template set whose layout override block renders only white space. -/
def blankOverrideTset : Tset where
  defined n := n = "layout_name" || n = "public"
  exec n _ _ :=
    if n = "layout_name" then .ok " \n\t"
    else if n = "public" then .ok "pub body"
    else .error ⟨"", "no template " ++ n⟩

/-- A template set whose layout override block fails to execute. -/
def failOverrideTset : Tset where
  defined n := n = "layout_name" || n = "public"
  exec n _ _ :=
    if n = "layout_name" then .error ⟨"pa", "boom"⟩
    else if n = "public" then .ok "pub body"
    else .error ⟨"", "no template " ++ n⟩

/-- A template set every execution of which fails. -/
def allFailTset : Tset where
  defined _ := false
  exec n _ _ := .error ⟨"half", "undefined block " ++ n⟩

/-- A plain path component: non-empty and neither dot nor dot-dot. -/
def PlainComp (c : String) : Prop := c ≠ "" ∧ c ≠ "." ∧ c ≠ ".."

instance (c : String) : Decidable (PlainComp c) :=
  inferInstanceAs (Decidable (c ≠ "" ∧ c ≠ "." ∧ c ≠ ".."))

deriving instance DecidableEq for Except

/-- A cleaned component list: a run of dot-dot components (only for
relative paths) followed by plain names. -/
def CleanList (abs : Bool) (l : List String) : Prop :=
  ∃ k names, l = List.replicate k ".." ++ names ∧ (abs = true → k = 0) ∧
    ∀ c ∈ names, PlainComp c

/-- Invariant of the Clean output stack (most recent component first):
plain names on top of a run of dot-dot components, the latter only for
relative paths. -/
def StackOK (abs : Bool) (s : List String) : Prop :=
  ∃ names k, s = names ++ List.replicate k ".." ∧ (abs = true → k = 0) ∧
    ∀ c ∈ names, PlainComp c

theorem stackOK_nil (abs : Bool) : StackOK abs [] :=
  ⟨[], 0, by simp, fun _ => rfl, by simp⟩

theorem cleanStep_stackOK {abs : Bool} {s : List String} (c : String)
    (h : StackOK abs s) : StackOK abs (cleanStep abs s c) := by
  obtain ⟨names, k, hs, habs, hplain⟩ := h
  by_cases h1 : c = "" ∨ c = "."
  · unfold cleanStep
    rw [if_pos h1]; exact ⟨names, k, hs, habs, hplain⟩
  by_cases h2 : c = ".."
  · unfold cleanStep
    rw [if_neg h1, if_pos h2]
    cases names with
    | nil =>
      simp only [List.nil_append] at hs
      cases hk : k with
      | zero =>
        subst hk; simp only [List.replicate] at hs; subst hs
        cases habs2 : abs with
        | true => exact ⟨[], 0, by simp, fun _ => rfl, by simp⟩
        | false =>
          exact ⟨[], 1, by simp [List.replicate], by simp [habs2], by simp⟩
      | succ j =>
        subst hk
        rw [List.replicate_succ] at hs
        subst hs
        refine ⟨[], j + 2, ?_, ?_, by simp⟩
        · simp [List.replicate_succ]
        · intro hab; exact absurd (habs hab) (by omega)
    | cons n0 ns =>
      rw [hs]
      simp only [List.cons_append]
      have hn0 : n0 ≠ ".." := (hplain n0 (by simp)).2.2
      rw [if_neg hn0]
      exact ⟨ns, k, rfl, habs, fun d hd => hplain d (by simp [hd])⟩
  · have h3 : ¬ (c = "" ∨ c = ".") := h1
    unfold cleanStep
    rw [if_neg h3, if_neg h2]
    push_neg at h3
    refine ⟨c :: names, k, by simp [hs], habs, ?_⟩
    intro d hd
    rcases List.mem_cons.mp hd with rfl | hd2
    · exact ⟨h3.1, h3.2, h2⟩
    · exact hplain d hd2

theorem foldl_cleanStep_stackOK (abs : Bool) (l s : List String)
    (h : StackOK abs s) : StackOK abs (l.foldl (cleanStep abs) s) := by
  induction l generalizing s with
  | nil => exact h
  | cons c cs ih => exact ih _ (cleanStep_stackOK c h)

theorem cleanComps_cleanList (abs : Bool) (l : List String) :
    CleanList abs (cleanComps abs l) := by
  obtain ⟨names, k, hs, habs, hplain⟩ :=
    foldl_cleanStep_stackOK abs l [] (stackOK_nil abs)
  refine ⟨k, names.reverse, ?_, habs, ?_⟩
  · rw [cleanComps, hs, List.reverse_append, List.reverse_replicate]
  · intro c hc; exact hplain c (List.mem_reverse.mp hc)

theorem foldl_cleanStep_plain (abs : Bool) (m : List String)
    (hm : ∀ c ∈ m, PlainComp c) (s : List String) :
    m.foldl (cleanStep abs) s = m.reverse ++ s := by
  induction m generalizing s with
  | nil => simp
  | cons c cs ih =>
    have hc := hm c (by simp)
    have hstep : cleanStep abs s c = c :: s := by
      unfold cleanStep
      rw [if_neg, if_neg hc.2.2]
      rintro (h | h)
      · exact hc.1 h
      · exact hc.2.1 h
    rw [List.foldl_cons, hstep, ih (fun d hd => hm d (by simp [hd]))]
    simp

theorem cleanStep_dots (j : Nat) :
    cleanStep false (List.replicate j "..") ".." = List.replicate (j + 1) ".." := by
  cases j with
  | zero => rfl
  | succ m => rfl

theorem foldl_cleanStep_dots (i j : Nat) :
    (List.replicate i "..").foldl (cleanStep false) (List.replicate j "..") =
      List.replicate (i + j) ".." := by
  induction i generalizing j with
  | zero => simp
  | succ n ih =>
    rw [List.replicate_succ, List.foldl_cons, cleanStep_dots, ih (j + 1)]
    congr 1
    omega

theorem cleanComps_of_cleanList {abs : Bool} {l : List String}
    (h : CleanList abs l) : cleanComps abs l = l := by
  obtain ⟨k, names, hl, habs, hplain⟩ := h
  subst hl
  rw [cleanComps, List.foldl_append]
  cases abs with
  | true =>
    have hk := habs rfl
    subst hk
    simp only [List.replicate, List.nil_append, List.foldl_nil]
    rw [foldl_cleanStep_plain true names hplain []]
    simp
  | false =>
    have hd : (List.replicate k "..").foldl (cleanStep false) [] =
        List.replicate k ".." := by
      have := foldl_cleanStep_dots k 0
      simpa using this
    rw [hd, foldl_cleanStep_plain false names hplain _,
      List.reverse_append, List.reverse_reverse, List.reverse_replicate]

theorem goClean_goClean (p : GoPath) : goClean (goClean p) = goClean p := by
  rw [goClean, goClean]
  exact congrArg (GoPath.mk p.abs)
    (cleanComps_of_cleanList (cleanComps_cleanList p.abs p.comps))

theorem cleanComps_append_plain (abs : Bool) (l m : List String)
    (hm : ∀ c ∈ m, PlainComp c) :
    cleanComps abs (l ++ m) = cleanComps abs l ++ m := by
  rw [cleanComps, List.foldl_append, foldl_cleanStep_plain abs m hm,
    List.reverse_append, List.reverse_reverse, cleanComps]

theorem dropCommon_self_append (l m : List String) :
    dropCommon l (l ++ m) = ([], m) := by
  induction l with
  | nil => cases m <;> rfl
  | cons a l ih =>
    rw [List.cons_append]
    unfold dropCommon
    rw [if_pos rfl]
    exact ih

/-- filepath.Rel is a left inverse of filepath.Join: joining plain
components under a clean root and relativizing against that root gives
the components back. -/
theorem goRel_goJoin (root : GoPath) (comps : List String)
    (hroot : goClean root = root)
    (hplain : ∀ c ∈ comps, PlainComp c) (hne : comps ≠ []) :
    goRel root (goJoin root ⟨false, comps⟩) = .ok ⟨false, comps⟩ := by
  have hrc : cleanComps root.abs root.comps = root.comps :=
    congrArg GoPath.comps hroot
  have hjoin : goJoin root ⟨false, comps⟩ = ⟨root.abs, root.comps ++ comps⟩ := by
    rw [goJoin, goClean]
    simp only
    rw [cleanComps_append_plain _ _ _ hplain, hrc]
  have htc : goClean ⟨root.abs, root.comps ++ comps⟩ =
      ⟨root.abs, root.comps ++ comps⟩ := by
    rw [goClean]
    simp only
    rw [cleanComps_append_plain _ _ _ hplain, hrc]
  have hne2 : root.comps ++ comps ≠ root.comps := by
    intro h
    have hlen := congrArg List.length h
    simp only [List.length_append] at hlen
    exact hne (List.eq_nil_of_length_eq_zero (by omega))
  rw [hjoin, goRel, hroot, htc]
  simp only
  rw [if_neg (fun h => hne2 (congrArg GoPath.comps h)), if_neg (by simp)]
  have htsegs :
      (if root.abs = false ∧ root.comps ++ comps = [] then ["."]
        else root.comps ++ comps) = root.comps ++ comps :=
    if_neg (by simp [hne])
  rw [htsegs, dropCommon_self_append]
  simp

theorem outNameComps_append (pre : List String) (c : String) :
    outNameComps (pre ++ [c]) =
      pre ++ [goTrimSuffix c ".template.html" ++ ".html"] := by
  induction pre with
  | nil => rfl
  | cons a l ih =>
    cases l with
    | nil => rfl
    | cons b l2 => exact congrArg (a :: ·) ih

theorem goHasSuffix_append (b suf : String) : goHasSuffix (b ++ suf) suf = true := by
  rw [goHasSuffix, String.data_append]
  exact List.isSuffixOf_iff_suffix.mpr ⟨b.data, rfl⟩

theorem goTrimSuffix_append (b suf : String) : goTrimSuffix (b ++ suf) suf = b := by
  rw [goTrimSuffix, if_pos (goHasSuffix_append b suf), String.data_append]
  have hlen : (b.data ++ suf.data).length - suf.data.length = b.data.length := by
    simp [List.length_append]
  rw [hlen, List.take_left]

theorem lookupKey_append_left {n v : String} {ts : List (String × String)}
    (h : lookupKey n ts = some v) (l : List (String × String)) :
    lookupKey n (ts ++ l) = some v := by
  induction ts with
  | nil => simp [lookupKey] at h
  | cons p rest ih =>
    obtain ⟨k, w⟩ := p
    rw [List.cons_append, lookupKey]
    rw [lookupKey] at h
    by_cases hk : k = n
    · rwa [if_pos hk] at h ⊢
    · rw [if_neg hk] at h ⊢
      exact ih h

theorem lookupKey_append_of_none {n : String} {ts : List (String × String)}
    (h : lookupKey n ts = none) (l : List (String × String)) :
    lookupKey n (ts ++ l) = lookupKey n l := by
  induction ts with
  | nil => rfl
  | cons p rest ih =>
    obtain ⟨k, w⟩ := p
    rw [lookupKey] at h
    rw [List.cons_append, lookupKey]
    by_cases hk : k = n
    · rw [if_pos hk] at h; exact absurd h (by simp)
    · rw [if_neg hk] at h ⊢
      exact ih h

theorem lookupKey_replaceKey_self {n w : String} {ts : List (String × String)}
    (h : lookupKey n ts = some w) (v : String) :
    lookupKey n (replaceKey n v ts) = some v := by
  induction ts with
  | nil => simp [lookupKey] at h
  | cons p rest ih =>
    obtain ⟨k, u⟩ := p
    rw [lookupKey] at h
    rw [replaceKey]
    by_cases hk : k = n
    · rw [if_pos hk, lookupKey, if_pos hk]
    · rw [if_neg hk] at h
      rw [if_neg hk, lookupKey, if_neg hk]
      exact ih h

theorem lookupKey_replaceKey_ne {n m : String} (hne : m ≠ n)
    (v : String) (ts : List (String × String)) :
    lookupKey n (replaceKey m v ts) = lookupKey n ts := by
  induction ts with
  | nil => rfl
  | cons p rest ih =>
    obtain ⟨k, u⟩ := p
    rw [replaceKey, lookupKey]
    by_cases hk : k = m
    · rw [if_pos hk, lookupKey]
      have hkn : ¬ k = n := by rw [hk]; exact hne
      rw [if_neg hkn, if_neg hkn]
      exact ih
    · rw [if_neg hk, lookupKey]
      by_cases hkn : k = n
      · rw [if_pos hkn, if_pos hkn]
      · rw [if_neg hkn, if_neg hkn]
        exact ih

theorem addDefine_preserves (n : String) {ts ts2 : List (String × String)}
    (p : String × String) (h : addDefine ts p = .ok ts2)
    (hb : ∃ v, lookupKey n ts = some v ∧ v ≠ "") :
    ∃ v, lookupKey n ts2 = some v ∧ v ≠ "" := by
  obtain ⟨v, hv, hvne⟩ := hb
  rw [addDefine] at h
  cases hl : lookupKey p.1 ts with
  | none =>
    simp only [hl] at h
    injection h with h2
    subst h2
    exact ⟨v, lookupKey_append_left hv [p], hvne⟩
  | some old =>
    simp only [hl] at h
    by_cases ho : old = ""
    · rw [if_pos ho] at h
      injection h with h2
      subst h2
      by_cases hp : p.1 = n
      · rw [hp, hv] at hl
        injection hl with h3
        exact absurd (h3 ▸ ho) hvne
      · exact ⟨v, by rw [lookupKey_replaceKey_ne hp]; exact hv, hvne⟩
    · rw [if_neg ho] at h
      by_cases hp2 : p.2 = ""
      · rw [if_pos hp2] at h
        injection h with h2
        subst h2
        exact ⟨v, hv, hvne⟩
      · rw [if_neg hp2] at h
        exact absurd h (by simp)

theorem addDefine_start {ts ts2 : List (String × String)} (n b1 : String)
    (hb1 : b1 ≠ "") (h : addDefine ts (n, b1) = .ok ts2) :
    ∃ v, lookupKey n ts2 = some v ∧ v ≠ "" := by
  rw [addDefine] at h
  cases hl : lookupKey n ts with
  | none =>
    simp only [hl] at h
    injection h with h2
    subst h2
    refine ⟨b1, ?_, hb1⟩
    rw [lookupKey_append_of_none hl, lookupKey, if_pos rfl]
  | some old =>
    simp only [hl] at h
    by_cases ho : old = ""
    · rw [if_pos ho] at h
      injection h with h2
      subst h2
      exact ⟨b1, lookupKey_replaceKey_self hl b1, hb1⟩
    · rw [if_neg ho, if_neg hb1] at h
      exact absurd h (by simp)

theorem parseFileDefsGo_err (n b2 : String) (hb2 : b2 ≠ "")
    (ys zs : List (String × String)) :
    ∀ ts, (∃ v, lookupKey n ts = some v ∧ v ≠ "") →
      ∃ e, parseFileDefsGo ts (ys ++ (n, b2) :: zs) = .error e := by
  induction ys with
  | nil =>
    rintro ts ⟨v, hv, hvne⟩
    refine ⟨"template: multiple definition of template " ++ n, ?_⟩
    simp only [List.nil_append, parseFileDefsGo, addDefine, hv, if_neg hvne, if_neg hb2]
  | cons p ys ih =>
    intro ts hb
    simp only [List.cons_append, parseFileDefsGo]
    cases had : addDefine ts p with
    | error e => exact ⟨e, rfl⟩
    | ok ts2 =>
      obtain ⟨e, he⟩ := ih ts2 (addDefine_preserves n p had hb)
      exact ⟨e, he⟩

theorem parseFileDefs_dup_err (xs ys zs : List (String × String))
    (n b1 b2 : String) (hb1 : b1 ≠ "") (hb2 : b2 ≠ "") :
    ∃ e, parseFileDefs (xs ++ (n, b1) :: ys ++ (n, b2) :: zs) = .error e := by
  rw [parseFileDefs]
  have aux : ∀ ts, ∃ e,
      parseFileDefsGo ts (xs ++ (n, b1) :: ys ++ (n, b2) :: zs) = .error e := by
    induction xs with
    | nil =>
      intro ts
      simp only [List.nil_append, parseFileDefsGo]
      cases had : addDefine ts (n, b1) with
      | error e => exact ⟨e, rfl⟩
      | ok ts2 => exact parseFileDefsGo_err n b2 hb2 ys zs ts2 (addDefine_start n b1 hb1 had)
    | cons p xs ih =>
      intro ts
      simp only [List.cons_append, parseFileDefsGo]
      cases had : addDefine ts p with
      | error e => exact ⟨e, rfl⟩
      | ok ts2 => exact ih ts2
  exact aux []

theorem parseFilesGo_err {f : List (String × String)}
    (hf : ∃ e, parseFileDefs f = .error e)
    (post pre : List (List (String × String))) :
    ∀ set, ∃ e, parseFilesGo set (pre ++ f :: post) = .error e := by
  induction pre with
  | nil =>
    intro set
    obtain ⟨e, he⟩ := hf
    refine ⟨e, ?_⟩
    simp only [List.nil_append, parseFilesGo, he]
  | cons g pre ih =>
    intro set
    simp only [List.cons_append, parseFilesGo]
    cases hg : parseFileDefs g with
    | error e => exact ⟨e, rfl⟩
    | ok ts => exact ih (ts.foldl associate set)

/-- C1: Layout resolution: for every built template set, if no block named
"layout_name" exists, the layout used is the default constant "public"; if
the block exists and executing it with no input data succeeds and yields a
string that is non-empty after trimming white space, that trimmed string
becomes the layout name; if the result trims to empty or the execution
fails, the default "public" is used and the override-execution failure is
never propagated (resolveLayout is total and renderOne proceeds with the
default). -/
theorem claim_c1_layout_resolution (t : Tset) (clk : Clock) :
    (t.defined "layout_name" = false → resolveLayout t clk = "public") ∧
    (∀ s, t.defined "layout_name" = true → t.exec "layout_name" none clk = .ok s →
      (goTrimSpace s ≠ "" → resolveLayout t clk = goTrimSpace s) ∧
      (goTrimSpace s = "" → resolveLayout t clk = "public")) ∧
    (∀ e, t.defined "layout_name" = true → t.exec "layout_name" none clk = .error e →
      resolveLayout t clk = "public") := by
  refine ⟨?_, ?_, ?_⟩
  · intro h
    rw [resolveLayout, if_neg (by simp [h])]
  · intro s hdef hexec
    constructor
    · intro hne
      rw [resolveLayout, if_pos (by simp [hdef])]
      simp only [hexec, if_pos hne]
    · intro he
      rw [resolveLayout, if_pos (by simp [hdef])]
      simp only [hexec, he]
      simp
  · intro e hdef hexec
    rw [resolveLayout, if_pos (by simp [hdef])]
    simp only [hexec]

theorem claim_c1_witness :
    resolveLayout overrideTset ⟨2024, ""⟩ = goTrimSpace " dashboard\n" ∧
    resolveLayout blankOverrideTset ⟨2024, ""⟩ = "public" ∧
    resolveLayout failOverrideTset ⟨2024, ""⟩ = "public" ∧
    resolveLayout pubTset ⟨2024, ""⟩ = "public" ∧
    (renderOne ⟨false, ["src"]⟩ ⟨false, ["site"]⟩ (.ok failOverrideTset)
      ⟨false, ["src", "pages", "a", "p.template.html"]⟩ "T" ⟨2024, ""⟩).1 = .ok () := by
  refine ⟨?_, ?_, ?_, ?_, by decide⟩
  · exact ((claim_c1_layout_resolution overrideTset ⟨2024, ""⟩).2.1 " dashboard\n"
      (by decide) (by decide)).1 (by decide)
  · exact ((claim_c1_layout_resolution blankOverrideTset ⟨2024, ""⟩).2.1 " \n\t"
      (by decide) (by decide)).2 (by decide)
  · exact (claim_c1_layout_resolution failOverrideTset ⟨2024, ""⟩).2.2 ⟨"pa", "boom"⟩
      (by decide) (by decide)
  · exact (claim_c1_layout_resolution pubTset ⟨2024, ""⟩).1 (by decide)

/-- C2: Output path derivation: for every valid page file under the pages
root (plain relative components joined below Join(srcDir, "pages")) with
no layout override, render executes the default layout "public" and writes
its output exactly to Join(outDir, rel with the trailing ".template.html"
of the final component replaced by ".html"), after creating the parent
directory and the file. -/
theorem claim_c2_output_path (srcDir outDir : GoPath) (t : Tset) (ts : String)
    (clk : Clock) (out : String) (comps : List String)
    (hplain : ∀ c ∈ comps, PlainComp c) (hne : comps ≠ [])
    (hdef : t.defined "layout_name" = false)
    (hexec : t.exec "public" (some ⟨clk.year, ts⟩) clk = .ok out) :
    resolveLayout t clk = "public" ∧
    renderOne srcDir outDir (.ok t)
        (goJoin (goJoin srcDir ⟨false, ["pages"]⟩) ⟨false, comps⟩) ts clk =
      (.ok (), [FsOp.mkdirAll (goDir (goJoin outDir ⟨false, outNameComps comps⟩)),
        FsOp.create (goJoin outDir ⟨false, outNameComps comps⟩),
        FsOp.write (goJoin outDir ⟨false, outNameComps comps⟩) out]) := by
  have hlay : resolveLayout t clk = "public" := by
    rw [resolveLayout, if_neg (by simp [hdef])]
  refine ⟨hlay, ?_⟩
  have hclean : goClean (goJoin srcDir ⟨false, ["pages"]⟩) =
      goJoin srcDir ⟨false, ["pages"]⟩ := goClean_goClean _
  have hrel := goRel_goJoin (goJoin srcDir ⟨false, ["pages"]⟩) comps hclean hplain hne
  simp only [renderOne, hrel, hlay, hexec]

theorem claim_c2_witness :
    resolveLayout pubTset ⟨2024, "T"⟩ = "public" ∧
    renderOne ⟨false, ["src"]⟩ ⟨false, ["site"]⟩ (.ok pubTset)
        (goJoin (goJoin ⟨false, ["src"]⟩ ⟨false, ["pages"]⟩)
          ⟨false, ["blog", "post.template.html"]⟩) "T" ⟨2024, "T"⟩ =
      (.ok (), [FsOp.mkdirAll (goDir (goJoin ⟨false, ["site"]⟩
          ⟨false, outNameComps ["blog", "post.template.html"]⟩)),
        FsOp.create (goJoin ⟨false, ["site"]⟩
          ⟨false, outNameComps ["blog", "post.template.html"]⟩),
        FsOp.write (goJoin ⟨false, ["site"]⟩
          ⟨false, outNameComps ["blog", "post.template.html"]⟩) "out"]) :=
  claim_c2_output_path ⟨false, ["src"]⟩ ⟨false, ["site"]⟩ pubTset "T" ⟨2024, "T"⟩
    "out" ["blog", "post.template.html"] (by decide) (by decide) (by decide) (by decide)

/-- C9: Implicit suffix edge case: for a page file whose final component
does not end in ".template.html", the suffix substitution leaves the name
unchanged and appends ".html" to it (for example "foo.html" becomes
"foo.html.html"); the substitution is total and removes the suffix only
when present. -/
theorem claim_c9_suffix_edge (pre : List String) (c : String)
    (h : goHasSuffix c ".template.html" = false) :
    outNameComps (pre ++ [c]) = pre ++ [c ++ ".html"] := by
  rw [outNameComps_append, goTrimSuffix, if_neg (by simp [h])]

theorem claim_c9_witness :
    outNameComps ([] ++ ["foo.html"]) = [] ++ ["foo.html" ++ ".html"] :=
  claim_c9_suffix_edge [] "foo.html" (by decide)

/-- C3 (amended): if the same block name is defined twice with non-empty
bodies within a single file of the combined set, building the set fails
with a Parse error (multiple definition of template) and the render aborts
with no filesystem effect; the same name defined in two different files of
the set does not fail: the later definition silently replaces the earlier
one. -/
theorem claim_c3_amended (pre post : List (List (String × String)))
    (xs ys zs : List (String × String)) (n b1 b2 : String)
    (hb1 : b1 ≠ "") (hb2 : b2 ≠ "") :
    (∃ e, parseFilesModel (pre ++ (xs ++ (n, b1) :: ys ++ (n, b2) :: zs) :: post) =
      .error e) ∧
    (∀ e srcDir outDir pageFile ts clk,
      renderOne srcDir outDir (.error e) pageFile ts clk = (.error (.parseErr e), [])) ∧
    (∀ m c1 c2, c1 ≠ "" → c2 ≠ "" →
      parseFilesModel [[(m, c1)], [(m, c2)]] = .ok [(m, c2)]) := by
  refine ⟨?_, fun e srcDir outDir pageFile ts clk => rfl, ?_⟩
  · exact parseFilesGo_err (parseFileDefs_dup_err xs ys zs n b1 b2 hb1 hb2) post pre []
  · intro m c1 c2 hc1 hc2
    simp only [parseFilesModel, parseFilesGo, parseFileDefs, parseFileDefsGo, addDefine,
      lookupKey, associate, replaceKey, List.foldl, if_pos rfl, if_neg hc2]
    simp

theorem claim_c3_witness :
    (∃ e, parseFilesModel ([] ++ ([] ++ ("dup", "a") :: [] ++ ("dup", "b") :: []) :: []) =
      .error e) ∧
    (∀ e srcDir outDir pageFile ts clk,
      renderOne srcDir outDir (.error e) pageFile ts clk = (.error (.parseErr e), [])) ∧
    (∀ m c1 c2, c1 ≠ "" → c2 ≠ "" →
      parseFilesModel [[(m, c1)], [(m, c2)]] = .ok [(m, c2)]) :=
  claim_c3_amended [] [] [] [] [] "dup" "a" "b" (by decide) (by decide)

/-- C3 counterexample: the same block name "x" defined (with non-empty
bodies) in two different files of the combined set does not cause a Parse
error: the set builds, the later definition wins, the render succeeds and
an output file is written. -/
theorem claim_c3_counterexample :
    parseFilesModel [[("x", "hello")], [("x", "world"), ("public", "page body")]] =
      .ok [("x", "world"), ("public", "page body")] ∧
    (renderOne ⟨false, ["src"]⟩ ⟨false, ["site"]⟩
        (tsetOfParse (parseFilesModel [[("x", "hello")], [("x", "world"), ("public", "page body")]]))
        ⟨false, ["src", "pages", "p.template.html"]⟩ "T" ⟨2024, ""⟩).1 = .ok () ∧
    FsOp.write ⟨false, ["site", "p.html"]⟩ "page body" ∈
      (renderOne ⟨false, ["src"]⟩ ⟨false, ["site"]⟩
        (tsetOfParse (parseFilesModel [[("x", "hello")], [("x", "world"), ("public", "page body")]]))
        ⟨false, ["src", "pages", "p.template.html"]⟩ "T" ⟨2024, ""⟩).2 := by
  refine ⟨by decide, by decide, by decide⟩

/-- C4 (amended): renderOne fails with a path resolution (Rel) error only
when filepath.Rel cannot lexically relativize the page path against
Join(srcDir, "pages"); in particular it does fail when one of the two is
absolute and the other relative, and then nothing is written. -/
theorem claim_c4_amended (srcDir outDir : GoPath) (t : Tset) (pageFile : GoPath)
    (ts : String) (clk : Clock) (h : srcDir.abs ≠ pageFile.abs) :
    ∃ msg, renderOne srcDir outDir (.ok t) pageFile ts clk =
      (.error (.relErr msg), []) := by
  have hrel : goRel (goJoin srcDir ⟨false, ["pages"]⟩) pageFile =
      .error ("Rel: cannot make " ++ pageFile.render ++ " relative to " ++
        (goJoin srcDir ⟨false, ["pages"]⟩).render) := by
    simp only [goRel]
    rw [if_neg (show ¬ goClean pageFile = goClean (goJoin srcDir ⟨false, ["pages"]⟩) from
          fun heq => h (congrArg GoPath.abs heq).symm),
      if_pos (show (goClean (goJoin srcDir ⟨false, ["pages"]⟩)).abs ≠
          (goClean pageFile).abs from h)]
  exact ⟨"Rel: cannot make " ++ pageFile.render ++ " relative to " ++
      (goJoin srcDir ⟨false, ["pages"]⟩).render,
    by simp only [renderOne, hrel]⟩

theorem claim_c4_amended_witness :
    (⟨false, ["src"]⟩ : GoPath).abs ≠ (⟨true, ["etc", "x.template.html"]⟩ : GoPath).abs ∧
    ∃ msg, renderOne ⟨false, ["src"]⟩ ⟨false, ["site"]⟩ (.ok pubTset)
        ⟨true, ["etc", "x.template.html"]⟩ "T" ⟨2024, ""⟩ =
      (.error (.relErr msg), []) :=
  ⟨by decide, claim_c4_amended ⟨false, ["src"]⟩ ⟨false, ["site"]⟩ pubTset
    ⟨true, ["etc", "x.template.html"]⟩ "T" ⟨2024, ""⟩ (by decide)⟩

/-- C4 counterexample: a page file that is not under the pages root (both
paths relative) does not produce a path resolution error: filepath.Rel
returns a dot-dot relative path, the render succeeds, and the output is
written to a path outside the output root. -/
theorem claim_c4_counterexample :
    underRoot (goJoin ⟨false, ["src"]⟩ ⟨false, ["pages"]⟩)
      ⟨false, ["src", "other", "foo.template.html"]⟩ = false ∧
    renderOne ⟨false, ["src"]⟩ ⟨false, ["site"]⟩ (.ok pubTset)
        ⟨false, ["src", "other", "foo.template.html"]⟩ "T" ⟨2024, ""⟩ =
      (.ok (), [FsOp.mkdirAll ⟨false, ["other"]⟩,
        FsOp.create ⟨false, ["other", "foo.html"]⟩,
        FsOp.write ⟨false, ["other", "foo.html"]⟩ "out"]) ∧
    underRoot ⟨false, ["site"]⟩ ⟨false, ["other", "foo.html"]⟩ = false := by
  refine ⟨by decide, by decide, by decide⟩

/-- C5 (amended): with identical input files, configuration, build
timestamp string and identical wall-clock readings (the current year put
into BaseData and the values of the time-dependent template helper
functions), two runs produce identical results and identical filesystem
effects. -/
theorem claim_c5_amended (srcDir outDir pagesGlob : GoPath)
    (globResult : Except String (List GoPath)) (tsetOf : GoPath → Except String Tset)
    (ts : String) (clk1 clk2 : Clock) (h : clk1 = clk2) :
    runMain srcDir outDir pagesGlob globResult tsetOf ts clk1 =
      runMain srcDir outDir pagesGlob globResult tsetOf ts clk2 := by
  rw [h]

theorem claim_c5_witness :
    runMain ⟨false, ["src"]⟩ ⟨false, ["site"]⟩ defaultPagesGlob
        (.ok [⟨false, ["src", "pages", "a", "p.template.html"]⟩])
        (fun _ => .ok pubTset) "T" ⟨2024, "now"⟩ =
      runMain ⟨false, ["src"]⟩ ⟨false, ["site"]⟩ defaultPagesGlob
        (.ok [⟨false, ["src", "pages", "a", "p.template.html"]⟩])
        (fun _ => .ok pubTset) "T" ⟨2024, "now"⟩ :=
  claim_c5_amended ⟨false, ["src"]⟩ ⟨false, ["site"]⟩ defaultPagesGlob
    (.ok [⟨false, ["src", "pages", "a", "p.template.html"]⟩])
    (fun _ => .ok pubTset) "T" ⟨2024, "now"⟩ ⟨2024, "now"⟩ rfl

/-- C5 counterexample: two runs with identical input files, configuration
and build timestamp string, taken at different wall-clock times (the year
read by time.Now differs), produce different output bytes, because
BaseData.Year comes from time.Now rather than from the timestamp flag. -/
theorem claim_c5_counterexample :
    renderOne ⟨false, ["src"]⟩ ⟨false, ["site"]⟩ (.ok yearTset)
        ⟨false, ["src", "pages", "index.template.html"]⟩ "2024-01-01 00:00:00 CST" ⟨2024, ""⟩ ≠
      renderOne ⟨false, ["src"]⟩ ⟨false, ["site"]⟩ (.ok yearTset)
        ⟨false, ["src", "pages", "index.template.html"]⟩ "2024-01-01 00:00:00 CST" ⟨2025, ""⟩ := by
  decide

/-- C6: the default page glob pattern Join("./src", "pages/**/*.template.html")
does not match recursively: Go path.Match gives the double star no special
meaning (two consecutive stars match like a single star, never across a
separator), so a file exactly one directory below pages matches while a
file directly in pages or two levels deep does not, contradicting the
claimed recursive behavior. -/
theorem claim_c6_glob_not_recursive :
    globMatch (goJoin defaultSrcDir defaultPagesGlob)
      ⟨false, ["src", "pages", "a", "index.template.html"]⟩ = true ∧
    globMatch (goJoin defaultSrcDir defaultPagesGlob)
      ⟨false, ["src", "pages", "index.template.html"]⟩ = false ∧
    globMatch (goJoin defaultSrcDir defaultPagesGlob)
      ⟨false, ["src", "pages", "a", "b", "index.template.html"]⟩ = false := by
  refine ⟨by decide, by decide, by decide⟩

/-- C7: Empty discovery: when the configured page glob matches zero files,
the run aborts with the Discovery error naming the joined pattern, before
any page is rendered, and the only filesystem effect is the creation of
the output root directory: no output file is created or written. -/
theorem claim_c7_empty_discovery (srcDir outDir pagesGlob : GoPath)
    (tsetOf : GoPath → Except String Tset) (ts : String) (clk : Clock) :
    runMain srcDir outDir pagesGlob (.ok []) tsetOf ts clk =
      (.error (.discoveryErr ("no page templates found: " ++
        (goJoin srcDir pagesGlob).render)), [FsOp.mkdirAll outDir]) := rfl

/-- C8: Fatal layout execution: when the final execution of the resolved
layout fails, renderOne returns a fatal execErr error carrying the page
file path and the attempted layout name, and the rendered error message
contains both the page file path and the layout name. -/
theorem claim_c8_exec_error (srcDir outDir : GoPath) (t : Tset) (pageFile : GoPath)
    (ts : String) (clk : Clock) (rel : GoPath) (e : TErr)
    (hrel : goRel (goJoin srcDir ⟨false, ["pages"]⟩) pageFile = .ok rel)
    (hexec : t.exec (resolveLayout t clk) (some ⟨clk.year, ts⟩) clk = .error e) :
    (renderOne srcDir outDir (.ok t) pageFile ts clk).1 =
      .error (.execErr pageFile (resolveLayout t clk) e.msg) ∧
    (∃ b, (RenderErr.execErr pageFile (resolveLayout t clk) e.msg).message =
      pageFile.render ++ b) ∧
    (∃ a b, (RenderErr.execErr pageFile (resolveLayout t clk) e.msg).message =
      a ++ (resolveLayout t clk ++ b)) := by
  refine ⟨?_, ?_, ?_⟩
  · simp only [renderOne, hrel, hexec]
  · exact ⟨": executing layout \"" ++ resolveLayout t clk ++ "\": " ++ e.msg,
      by simp [RenderErr.message, String.append_assoc]⟩
  · exact ⟨pageFile.render ++ ": executing layout \"", "\": " ++ e.msg,
      by simp [RenderErr.message, String.append_assoc]⟩

theorem claim_c8_witness :
    (renderOne ⟨false, ["src"]⟩ ⟨false, ["site"]⟩ (.ok allFailTset)
        ⟨false, ["src", "pages", "a", "p.template.html"]⟩ "T" ⟨2024, ""⟩).1 =
      .error (.execErr ⟨false, ["src", "pages", "a", "p.template.html"]⟩
        (resolveLayout allFailTset ⟨2024, ""⟩) (⟨"half", "undefined block public"⟩ : TErr).msg) ∧
    (∃ b, (RenderErr.execErr ⟨false, ["src", "pages", "a", "p.template.html"]⟩
        (resolveLayout allFailTset ⟨2024, ""⟩)
        (⟨"half", "undefined block public"⟩ : TErr).msg).message =
      (⟨false, ["src", "pages", "a", "p.template.html"]⟩ : GoPath).render ++ b) ∧
    (∃ a b, (RenderErr.execErr ⟨false, ["src", "pages", "a", "p.template.html"]⟩
        (resolveLayout allFailTset ⟨2024, ""⟩)
        (⟨"half", "undefined block public"⟩ : TErr).msg).message =
      a ++ (resolveLayout allFailTset ⟨2024, ""⟩ ++ b)) :=
  claim_c8_exec_error ⟨false, ["src"]⟩ ⟨false, ["site"]⟩ allFailTset
    ⟨false, ["src", "pages", "a", "p.template.html"]⟩ "T" ⟨2024, ""⟩
    ⟨false, ["a", "p.template.html"]⟩ ⟨"half", "undefined block public"⟩
    (by decide) (by decide)

/-- C10: the creation of the output root directory is the first filesystem
effect of every run, before page discovery is consulted; a run that aborts
because the glob failed or matched zero files performs exactly that one
effect, so the output root is left created and no other output path is
touched before the first page render. -/
theorem claim_c10_outdir_created_first (srcDir outDir pagesGlob : GoPath)
    (globResult : Except String (List GoPath)) (tsetOf : GoPath → Except String Tset)
    (ts : String) (clk : Clock) :
    (∃ rest, (runMain srcDir outDir pagesGlob globResult tsetOf ts clk).2 =
      FsOp.mkdirAll outDir :: rest) ∧
    (globResult = .ok [] →
      (runMain srcDir outDir pagesGlob globResult tsetOf ts clk).2 =
        [FsOp.mkdirAll outDir]) ∧
    (∀ e, globResult = .error e →
      (runMain srcDir outDir pagesGlob globResult tsetOf ts clk).2 =
        [FsOp.mkdirAll outDir]) := by
  rcases globResult with e | pages
  · exact ⟨⟨[], rfl⟩, fun h => by simp at h, fun e2 h => rfl⟩
  · cases pages with
    | nil => exact ⟨⟨[], rfl⟩, fun _ => rfl, fun e2 h => by simp at h⟩
    | cons p ps =>
      refine ⟨⟨_, rfl⟩, fun h => by simp at h, fun e2 h => by simp at h⟩

theorem claim_c10_witness :
    (∃ rest, (runMain ⟨false, ["src"]⟩ ⟨false, ["site"]⟩ defaultPagesGlob (.ok [])
      (fun _ => .ok pubTset) "T" ⟨2024, ""⟩).2 = FsOp.mkdirAll ⟨false, ["site"]⟩ :: rest) ∧
    (runMain ⟨false, ["src"]⟩ ⟨false, ["site"]⟩ defaultPagesGlob (.ok [])
      (fun _ => .ok pubTset) "T" ⟨2024, ""⟩).2 = [FsOp.mkdirAll ⟨false, ["site"]⟩] := by
  have h := claim_c10_outdir_created_first ⟨false, ["src"]⟩ ⟨false, ["site"]⟩
    defaultPagesGlob (.ok []) (fun _ => .ok pubTset) "T" ⟨2024, ""⟩
  exact ⟨h.1, h.2.1 rfl⟩
